import Mathlib

/-!
Verification of the shbucket placement, node-health and capability-token
subsystem against its natural-language specification.

The Go source is shallowly embedded: database tables become lists of
records, GORM/GoNtext queries become `List.find?` with the same filters,
`time.Time` comparisons become comparisons on `Nat` instants, Go `int64`
sizes become `Int`, and the HMAC-SHA256 primitive is kept abstract as a
function parameter (the control flow of the handlers never inspects the
signature string beyond equality tests).  Outbound HTTP calls and
filesystem writes are modelled by explicit outcome flags supplied in an
environment record, mirroring the single-attempt, no-retry contract of
the source.
-/

deriving instance DecidableEq for Except

namespace ShBucket

/-- Time instants (Go `time.Time`) as naturals; `a.Before(b)` is `a < b`
and `a.After(b)` is `b < a`, as in the source comparisons. -/
abbrev Time := Nat

/-- Bucket entity (`Entities/bucket.go`); only the fields read by the
embedded handlers are carried (`Id`, `Name`, `Settings.PublicRead`). -/
structure Bucket where
  id : String
  name : String
  publicRead : Bool
  deriving DecidableEq, Repr

/-- File entity (`Entities/file.go`), restricted to the fields the
placement/serving/token handlers read or write. -/
structure File where
  id : String
  bucketId : String
  name : String
  path : String
  size : Int
  mimeType : String
  checksum : String
  deriving DecidableEq, Repr

/-- Storage-node registry row (`Entities/storage_node.go`). -/
structure StorageNode where
  id : String
  name : String
  url : String
  authKey : String
  isActive : Bool
  isHealthy : Bool
  priority : Int
  maxStorage : Int
  usedStorage : Int
  lastPing : Option Time
  deriving DecidableEq, Repr

/-- Signed-URL (capability token) row (`Entities/signed_url.go`). -/
structure SignedURL where
  signature : String
  bucketName : String
  fileName : String
  method : String
  expiresAt : Time
  singleUse : Bool
  used : Bool
  usedAt : Option Time
  deriving DecidableEq, Repr

/-- The master row of the `SetupConfigs` table (`Entities` SetupConfig),
restricted to the fields `DistributedUploadRequestHandler.Handle` reads. -/
structure SetupConfig where
  storagePath : String
  maxStorage : Int
  deriving DecidableEq, Repr

/-- The database state visible to the embedded handlers. -/
structure Db where
  masterConfig : SetupConfig
  buckets : List Bucket
  files : List File
  storageNodes : List StorageNode
  signedURLs : List SignedURL
  deriving DecidableEq, Repr

/-- `SignedURLs.Where(&SignedURL{Signature: s}).FirstOrDefault()`. -/
def findSignedURL (urls : List SignedURL) (sig : String) : Option SignedURL :=
  urls.find? (fun u => decide (u.signature = sig))

/-- `Buckets.Where(&Bucket{Name: n}).FirstOrDefault()`. -/
def findBucketByName (buckets : List Bucket) (name : String) : Option Bucket :=
  buckets.find? (fun b => decide (b.name = name))

/-- `Buckets.Where(&Bucket{Id: i}).FirstOrDefault()`. -/
def findBucketById (buckets : List Bucket) (id : String) : Option Bucket :=
  buckets.find? (fun b => decide (b.id = id))

/-- `Files.Where(&File{Name: n, BucketId: b}).FirstOrDefault()`. -/
def findFileByNameInBucket (files : List File) (name bucketId : String) : Option File :=
  files.find? (fun f => decide (f.name = name ∧ f.bucketId = bucketId))

/-- `Files.Where(&File{Id: i, BucketId: b}).FirstOrDefault()`. -/
def findFileById (files : List File) (fileId bucketId : String) : Option File :=
  files.find? (fun f => decide (f.id = fileId ∧ f.bucketId = bucketId))

/-- The signed payload `fmt.Sprintf("%s:%s", bucketID, fileID)` used by
`GenerateSignedURLRequestHandler`. -/
def payloadOf (bucketId fileId : String) : String :=
  bucketId ++ ":" ++ fileId

/-- The URL format returned by the issuance handler:
`{base}/api/v1/file/{bucket}/{file}?signature={sig}`. -/
def signedFileURL (baseURL bucketId fileId sig : String) : String :=
  baseURL ++ "/api/v1/file/" ++ bucketId ++ "/" ++ fileId ++ "?signature=" ++ sig

/-- Error kinds of `ValidateSignedURL`, one per `fmt.Errorf` site. -/
inductive ValidateErr where
  | notFound
  | expired
  | alreadyUsed
  | bucketNotFound
  | fileNotFound
  | integrityFailure
  deriving DecidableEq, Repr

/-- `GenerateSignedURLRequestHandler.ValidateSignedURL`: look up the row by
signature, check expiry (`ExpiresAt.Before(now)`), check single-use
consumption, re-resolve bucket (by stored name) and file (by stored name
within that bucket), recompute the HMAC over the resolved identities and
compare.  The source performs no database mutation on any path of this
function, so it is a pure query. -/
def validateSignedURL (hmac : String → String → String) (secret : String)
    (db : Db) (now : Time) (sig : String) : Except ValidateErr SignedURL :=
  match findSignedURL db.signedURLs sig with
  | none => .error .notFound
  | some u =>
    if u.expiresAt < now then .error .expired
    else if u.singleUse && u.used then .error .alreadyUsed
    else
      match findBucketByName db.buckets u.bucketName with
      | none => .error .bucketNotFound
      | some bucket =>
        match findFileByNameInBucket db.files u.fileName bucket.id with
        | none => .error .fileNotFound
        | some file =>
          if sig = hmac secret (payloadOf bucket.id file.id) then .ok u
          else .error .integrityFailure

/-- `GenerateSignedURLRequestHandler.MarkSignatureAsUsed`: error when the
signature has no row; for a single-use row set `Used`/`UsedAt` and persist;
for a non-single-use row do nothing. -/
def markSignatureAsUsed (db : Db) (now : Time) (sig : String) : Except Unit Db :=
  match findSignedURL db.signedURLs sig with
  | none => .error ()
  | some u =>
    if u.singleUse then
      .ok { db with
              signedURLs := db.signedURLs.map fun v =>
                if v.signature = sig then { v with used := true, usedAt := some now }
                else v }
    else .ok db

/-- Error kinds of the issuance handler `Handle`. -/
inductive IssueErr where
  | fileNotFound
  | bucketNotFound
  deriving DecidableEq, Repr

/-- Response of the issuance handler (url, expiry, message). -/
structure GenerateSignedURLResponse where
  url : String
  expiresAt : Time
  message : String
  deriving DecidableEq, Repr

/-- `GenerateSignedURLRequestHandler.Handle`: resolve file and bucket,
compute `signature = HMAC(secret, bucketID:fileID)`; if a row with that
signature exists and `ExpiresAt.After(now)`, return it unchanged; if it
exists but is expired, remove it and fall through; insert a fresh row
`{signature, bucketName, fileName, "GET", now+ttl, unused, singleUse}`.
Database saves are modelled as succeeding (their failure modes are not at
issue in any claim). -/
def generateSignedURL (hmac : String → String → String) (secret baseURL : String)
    (db : Db) (now : Time) (bucketId fileId : String) (expiresIn : Time)
    (singleUse : Bool) : Except IssueErr (GenerateSignedURLResponse × Db) :=
  match findFileById db.files fileId bucketId with
  | none => .error .fileNotFound
  | some file =>
    match findBucketById db.buckets bucketId with
    | none => .error .bucketNotFound
    | some bucket =>
      let expiresAt := now + expiresIn
      let signature := hmac secret (payloadOf bucketId fileId)
      let fresh : SignedURL :=
        { signature := signature, bucketName := bucket.name, fileName := file.name
          method := "GET", expiresAt := expiresAt
          singleUse := singleUse, used := false, usedAt := none }
      match findSignedURL db.signedURLs signature with
      | some existing =>
        if now < existing.expiresAt then
          .ok ({ url := signedFileURL baseURL bucketId fileId signature
                 expiresAt := existing.expiresAt
                 message := "Existing signed URL returned" }, db)
        else
          let db1 : Db :=
            { db with signedURLs := db.signedURLs.filter fun v => decide (¬ v.signature = signature) }
          .ok ({ url := signedFileURL baseURL bucketId fileId signature
                 expiresAt := expiresAt
                 message := "Signed URL generated successfully" },
               { db1 with signedURLs := db1.signedURLs ++ [fresh] })
      | none =>
        .ok ({ url := signedFileURL baseURL bucketId fileId signature
               expiresAt := expiresAt
               message := "Signed URL generated successfully" },
             { db with signedURLs := db.signedURLs ++ [fresh] })

/-! Placement engine (`DistributedUploadRequestHandler.Handle`). -/

/-- `Files.SumField("Size")`: the sum of the sizes of every file record,
irrespective of where the bytes live. -/
def masterUsedStorage (files : List File) : Int :=
  (files.map (·.size)).sum

/-- The free-space figure the placement decision actually uses:
`masterConfig.MaxStorage - SumField("Size")` over all file records. -/
def masterFreeSpace (cfg : SetupConfig) (files : List File) : Int :=
  cfg.maxStorage - masterUsedStorage files

/-- A stored path designates a remote node when it carries the
`node://` scheme, exactly the `strings.HasPrefix(path, "node://")` test of
`FileController.ServeFile` (a byte prefix in Go, equivalently a character
prefix here since both operands are the same encoding). -/
def isNodePath (p : String) : Bool :=
  "node://".data.isPrefixOf p.data

/-- Modelled from the spec: the Capacity Accountant as the spec words it,
"ceiling minus the sum of sizes of all locally stored objects" — counting
only records whose path is not a `node://` descriptor.  Declared solely to
compare with `masterFreeSpace`, the definition taken from the source. -/
def masterFreeSpaceSpecLocalOnly (cfg : SetupConfig) (files : List File) : Int :=
  cfg.maxStorage - ((files.filter fun f => !isNodePath f.path).map (·.size)).sum

/-- The remote location descriptor
`fmt.Sprintf("node://%s/%s/%s", nodeID, bucketID, fileID)`. -/
def nodePathFor (nodeId bucketId fileId : String) : String :=
  "node://" ++ nodeId ++ "/" ++ bucketId ++ "/" ++ fileId

/-- The local location descriptor
`filepath.Join(storagePath, bucketName, fileID)`. -/
def localPathFor (storagePath bucketName fileId : String) : String :=
  storagePath ++ "/" ++ bucketName ++ "/" ++ fileId

/-- Outcomes of the side effects the upload handler performs, one flag per
single-attempt call in the source.  `remoteWrite` models the one HTTP POST
of `uploadToNode`: `none` is a transport error, `some b` a response whose
status is (`b = true`) or is not (`b = false`) 200/201.  `hash` stands for
the SHA-256 hex digest computed over the payload in the local branch. -/
structure UploadEnv where
  remoteWrite : Option Bool
  mkdirOk : Bool
  diskWriteOk : Bool
  fileSaveOk : Bool
  hash : String → String

/-- The parts of `DistributedUploadCommand` the handler reads, plus the
object id `uuid.New()` generates at the top of `Handle`, supplied as an
input so the embedding stays deterministic. -/
structure UploadCommand where
  bucketId : String
  fileName : String
  contentType : String
  uploadedBy : String
  size : Int
  content : String
  newFileId : String
  deriving DecidableEq, Repr

/-- Error kinds of the upload handler, one per `fmt.Errorf` site reachable
in the embedded flow. -/
inductive UploadErr where
  | noActiveNodes
  | insufficientSpace
  | remoteBucketNotFound
  | remoteWriteFailed
  | nodeRejected
  | bucketNotFound
  | storagePathMissing
  | mkdirFailed
  | diskWriteFailed
  | fileSaveFailed
  deriving DecidableEq, Repr

/-- Success payload: the stored path, checksum, and the node the object
went to (`none` for local placement), mirroring the response fields
`File.Path`, `File.Checksum`, `StorageNode`. -/
structure UploadOk where
  filePath : String
  checksum : String
  storageNodeId : Option String
  deriving DecidableEq, Repr

/-- The last step of `Handle`: build the file record for the decided
location and persist it with `Files.Add` + `SaveChanges`; on a save
failure the handler errors with the record unsaved. -/
def persistRecord (env : UploadEnv) (db : Db) (cmd : UploadCommand)
    (chosen : Option StorageNode) (filePath checksum : String) :
    Except UploadErr UploadOk × Db :=
  if env.fileSaveOk then
    (.ok { filePath := filePath, checksum := checksum,
           storageNodeId := chosen.map (·.id) },
     { db with files := db.files ++
         [{ id := cmd.newFileId, bucketId := cmd.bucketId, name := cmd.fileName
            path := filePath, size := cmd.size
            mimeType := cmd.contentType, checksum := checksum }] })
  else (.error .fileSaveFailed, db)

/-- The tail of `Handle` shared by both branches: look up the bucket,
produce the location descriptor and checksum (creating the bucket
directory and writing the bytes locally when no node was chosen), build
the file record and persist it.  The `db` passed in already contains the
node-counter update when a remote write happened, exactly as in the
source, where that update is saved before the file record is. -/
def finishUpload (env : UploadEnv) (db : Db) (cmd : UploadCommand)
    (chosen : Option StorageNode) : Except UploadErr UploadOk × Db :=
  match findBucketById db.buckets cmd.bucketId with
  | none => (.error .bucketNotFound, db)
  | some bucket =>
    match chosen with
    | none =>
      if db.masterConfig.storagePath = "" then (.error .storagePathMissing, db)
      else if !env.mkdirOk then (.error .mkdirFailed, db)
      else if !env.diskWriteOk then (.error .diskWriteFailed, db)
      else
        persistRecord env db cmd none
          (localPathFor db.masterConfig.storagePath bucket.name cmd.newFileId)
          (env.hash cmd.content)
    | some node =>
      persistRecord env db cmd (some node)
        (nodePathFor node.id cmd.bucketId cmd.newFileId) "stored-on-node"

/-- `DistributedUploadRequestHandler.Handle`: compute the master's free
space; when it is short, take the **first** node with
`IsActive ∧ IsHealthy` (`FirstOrDefault`), fail unless that single node
has room, perform the remote write (`uploadToNode`, which first resolves
the bucket), and persist the incremented used-storage counter before the
file record is created; otherwise keep the object local.  The pair
returned is (handler result, database after the call). -/
def distributedUpload (env : UploadEnv) (db : Db) (cmd : UploadCommand) :
    Except UploadErr UploadOk × Db :=
  if masterFreeSpace db.masterConfig db.files < cmd.size then
    match db.storageNodes.find? (fun n => n.isActive && n.isHealthy) with
    | none => (.error .noActiveNodes, db)
    | some node =>
      if node.maxStorage - node.usedStorage < cmd.size then
        (.error .insufficientSpace, db)
      else
        match findBucketById db.buckets cmd.bucketId with
        | none => (.error .remoteBucketNotFound, db)
        | some _ =>
          match env.remoteWrite with
          | none => (.error .remoteWriteFailed, db)
          | some false => (.error .nodeRejected, db)
          | some true =>
            let db1 : Db :=
              { db with
                  storageNodes := db.storageNodes.map fun m =>
                    if m.id = node.id then { m with usedStorage := m.usedStorage + cmd.size }
                    else m }
            finishUpload env db1 cmd
              (some { node with usedStorage := node.usedStorage + cmd.size })
  else
    finishUpload env db cmd none

/-! Node health monitor (`NodeController` in the services source). -/

/-- The per-node state change of `HealthCheck` and `CheckAllNodesHealth`:
`IsHealthy := probe outcome`, `LastPing := now`, and `IsActive := true`. -/
def applyHealthCheck (now : Time) (healthy : Bool) (n : StorageNode) : StorageNode :=
  { n with isHealthy := healthy, lastPing := some now, isActive := true }

/-- The per-node state change of the passive `Ping` endpoint:
`IsHealthy := true`, `LastPing := now`, nothing else. -/
def applyPing (now : Time) (n : StorageNode) : StorageNode :=
  { n with isHealthy := true, lastPing := some now }

/-- `NodeController.HealthCheck`: find the node by id, probe it (`probe`
abstracts `pingNode`, the 10-second-timeout GET of the health endpoint),
record the outcome.  `none` when the node id is unknown; otherwise the
updated registry is returned together with the probe outcome. -/
def healthCheck (probe : StorageNode → Bool) (now : Time) (db : Db)
    (nodeId : String) : Option (Db × Bool) :=
  match db.storageNodes.find? (fun n => decide (n.id = nodeId)) with
  | none => none
  | some node =>
    some ({ db with
              storageNodes := db.storageNodes.map fun m =>
                if m.id = nodeId then applyHealthCheck now (probe node) m else m },
          probe node)

/-- `NodeController.CheckAllNodesHealth`: probe every registered node and
persist all the updates as one batch (`UpdateRange` + one `SaveChanges`). -/
def checkAllNodesHealth (probe : StorageNode → Bool) (now : Time) (db : Db) : Db :=
  { db with storageNodes := db.storageNodes.map fun n => applyHealthCheck now (probe n) n }

/-- `NodeController.Ping`: authenticate the caller by (url, auth key); on a
match update only that node's health flag and last-contact time. -/
def nodePing (now : Time) (db : Db) (url authKey : String) : Except Unit Db :=
  match db.storageNodes.find? (fun n => decide (n.url = url ∧ n.authKey = authKey)) with
  | none => .error ()
  | some node =>
    .ok { db with
            storageNodes := db.storageNodes.map fun m =>
              if m.id = node.id then applyPing now m else m }

/-! File serving (`FileController.ServeFile`). -/

/-- Splitting a character list on `'/'`, with the semantics of Go's
`strings.Split`: n separators yield n+1 pieces, the empty input one
piece. -/
def splitOnSlash : List Char → List String
  | [] => [""]
  | c :: cs =>
    if c = '/' then "" :: splitOnSlash cs
    else
      match splitOnSlash cs with
      | [] => [String.mk [c]]
      | s :: rest => String.mk (c :: s.data) :: rest

/-- `strings.Split(strings.TrimPrefix(path, "node://"), "/")`: drop the
7-character scheme, then split the remainder on `'/'`. -/
def nodePathParts (p : String) : List String :=
  splitOnSlash (p.data.drop 7)

/-- Observable outcomes of `ServeFile`, one per return site of the
embedded flow (HTTP status plus which body was sent). -/
inductive ServeResult where
  | fileNotFound
  | bucketNotFound
  | unauthorizedSignature
  | unauthorizedOther
  | markUsedFailed
  | nodeFetchFailed
  | sentNodeBytes
  | sentLocalFile
  deriving DecidableEq, Repr

/-- `FileController.ServeFile` restricted to the paths the claims are
about: resolve the file and bucket; when the bucket is not public-read and
a `signature` query parameter is present, validate it and — for a
single-use, not-yet-used token — mark it used immediately, before any
bytes are retrieved; then serve from the owning node (`fetchFileFromNode`,
whose single outbound GET is abstracted by `fetchOk`) when the stored path
is a `node://` descriptor with at least three segments, and from local
disk otherwise.  The API-key and JWT fallbacks are out-of-scope
collaborators and are folded into `unauthorizedOther`; the image
post-processing branch is skipped (for a `node://` path its
`processImage` call fails on the non-local path and the source falls back
to this flow). -/
def serveFile (hmac : String → String → String) (secret : String) (fetchOk : Bool)
    (now : Time) (db : Db) (bucketId fileId : String)
    (signature : Option String) : ServeResult × Db :=
  match findFileById db.files fileId bucketId with
  | none => (.fileNotFound, db)
  | some fileInfo =>
    match findBucketById db.buckets bucketId with
    | none => (.bucketNotFound, db)
    | some bucket =>
      let send (db1 : Db) : ServeResult × Db :=
        if isNodePath fileInfo.path ∧ 3 ≤ (nodePathParts fileInfo.path).length then
          if fetchOk then (.sentNodeBytes, db1) else (.nodeFetchFailed, db1)
        else (.sentLocalFile, db1)
      if bucket.publicRead then send db
      else
        match signature with
        | none => (.unauthorizedOther, db)
        | some sig =>
          match validateSignedURL hmac secret db now sig with
          | .error _ => (.unauthorizedSignature, db)
          | .ok u =>
            if u.singleUse && !u.used then
              match markSignatureAsUsed db now sig with
              | .error _ => (.markUsedFailed, db)
              | .ok db1 => send db1
            else send db

/-! Concrete fixtures used by witnesses and counterexamples. -/

/-- A concrete stand-in for the abstract HMAC primitive, used only to
instantiate witnesses; no theorem depends on its shape. -/
def fixH : String → String → String := fun s p => s ++ "|" ++ p

def fixBucket : Bucket := { id := "b", name := "B", publicRead := false }

def fixFile : File :=
  { id := "f", bucketId := "b", name := "F", path := "node://n/b/f"
    size := 7, mimeType := "t", checksum := "stored-on-node" }

/-- A valid single-use row for bucket `b` / file `f` under `fixH`,`"k"`. -/
def fixRow : SignedURL :=
  { signature := "k|b:f", bucketName := "B", fileName := "F", method := "GET"
    expiresAt := 10, singleUse := true, used := false, usedAt := none }

def fixDb : Db :=
  { masterConfig := { storagePath := "/s", maxStorage := 100 }
    buckets := [fixBucket], files := [fixFile]
    storageNodes := [], signedURLs := [fixRow] }

/-! Helper lemmas about lookups after store updates. -/

theorem findSignedURL_append_fresh (urls : List SignedURL) (row : SignedURL)
    (h : findSignedURL urls row.signature = none) :
    findSignedURL (urls ++ [row]) row.signature = some row := by
  unfold findSignedURL at *
  rw [List.find?_append, h]
  simp [List.find?]

theorem findSignedURL_filter_ne (urls : List SignedURL) (sig : String) :
    findSignedURL (urls.filter fun v => decide (¬ v.signature = sig)) sig = none := by
  unfold findSignedURL
  rw [List.find?_eq_none]
  intro x hx
  have hmem := List.of_mem_filter hx
  simp only [decide_not, Bool.not_eq_true'] at hmem
  simp [hmem]

theorem findSignedURL_mark (urls : List SignedURL) (sig : String) (now : Time)
    (u : SignedURL) (h : findSignedURL urls sig = some u) :
    findSignedURL
      (urls.map fun v =>
        if v.signature = sig then { v with used := true, usedAt := some now } else v) sig
      = some { u with used := true, usedAt := some now } := by
  unfold findSignedURL at *
  induction urls with
  | nil => simp at h
  | cons a l ih =>
    by_cases ha : a.signature = sig
    · rw [List.find?_cons_of_pos _ (by simp [ha])] at h
      injection h with h
      subst h
      simp only [List.map_cons, if_pos ha]
      exact List.find?_cons_of_pos _ (by simp [ha])
    · rw [List.find?_cons_of_neg _ (by simp [ha])] at h
      simp only [List.map_cons, if_neg ha]
      rw [List.find?_cons_of_neg _ (by simp [ha])]
      exact ih h

/-- Direct computation of a successful validation from its six component
facts, shared by several claims. -/
theorem validateSignedURL_eq_ok
    {hmac : String → String → String} {secret : String} {db : Db} {now : Time}
    {sig : String} {u : SignedURL} {b : Bucket} {f : File}
    (hu : findSignedURL db.signedURLs sig = some u)
    (hexp : ¬ u.expiresAt < now)
    (hused : (u.singleUse && u.used) = false)
    (hb : findBucketByName db.buckets u.bucketName = some b)
    (hf : findFileByNameInBucket db.files u.fileName b.id = some f)
    (hsig : sig = hmac secret (payloadOf b.id f.id)) :
    validateSignedURL hmac secret db now sig = .ok u := by
  unfold validateSignedURL
  simp only [hu, hb, hf]
  rw [if_neg hexp, hused]
  simp [hsig]

/-- C5: token issuance is idempotent within a token's validity window.
The signature embedded in the issued URL is deterministically the HMAC of
`bucketId:fileId` under the signing secret; issuing again for the same
(bucket, object) while the stored row is still valid returns the same
signature and leaves the store unchanged (the existing row is returned,
no new row is inserted). -/
theorem claim_C5_issue_idempotent
    (hmac : String → String → String) (secret baseURL : String) (db : Db)
    (now1 now2 ttl : Time) (bucketId fileId : String) (su1 su2 : Bool)
    (file : File) (bucket : Bucket)
    (hf : findFileById db.files fileId bucketId = some file)
    (hb : findBucketById db.buckets bucketId = some bucket)
    (hfresh : findSignedURL db.signedURLs (hmac secret (payloadOf bucketId fileId)) = none)
    (hwin : now2 < now1 + ttl) :
    ∃ r1 db1,
      generateSignedURL hmac secret baseURL db now1 bucketId fileId ttl su1 = .ok (r1, db1) ∧
      r1.url = signedFileURL baseURL bucketId fileId (hmac secret (payloadOf bucketId fileId)) ∧
      findSignedURL db1.signedURLs (hmac secret (payloadOf bucketId fileId)) =
        some { signature := hmac secret (payloadOf bucketId fileId), bucketName := bucket.name
               fileName := file.name, method := "GET", expiresAt := now1 + ttl
               singleUse := su1, used := false, usedAt := none } ∧
      generateSignedURL hmac secret baseURL db1 now2 bucketId fileId ttl su2 =
        .ok ({ url := r1.url, expiresAt := now1 + ttl
               message := "Existing signed URL returned" }, db1) := by
  refine ⟨{ url := signedFileURL baseURL bucketId fileId (hmac secret (payloadOf bucketId fileId))
            expiresAt := now1 + ttl, message := "Signed URL generated successfully" },
          { db with signedURLs := db.signedURLs ++
              [{ signature := hmac secret (payloadOf bucketId fileId), bucketName := bucket.name
                 fileName := file.name, method := "GET", expiresAt := now1 + ttl
                 singleUse := su1, used := false, usedAt := none }] },
          ?_, rfl, ?_, ?_⟩
  · unfold generateSignedURL
    simp only [hf, hb, hfresh]
  · exact findSignedURL_append_fresh _ _ hfresh
  · unfold generateSignedURL
    simp only [hf, hb]
    rw [findSignedURL_append_fresh _ _ hfresh]
    simp only [if_pos hwin]

/-- A store with the fixture bucket and file but no token rows yet. -/
def fixDbFresh : Db :=
  { masterConfig := { storagePath := "/s", maxStorage := 100 }
    buckets := [fixBucket], files := [fixFile]
    storageNodes := [], signedURLs := [] }

/-- Witness for C5 at a concrete store: both issuance calls evaluated. -/
theorem claim_C5_witness :
    ∃ r1 db1,
      generateSignedURL fixH "k" "x" fixDbFresh 0 "b" "f" 10 true = .ok (r1, db1) ∧
      r1.url = signedFileURL "x" "b" "f" (fixH "k" (payloadOf "b" "f")) ∧
      findSignedURL db1.signedURLs (fixH "k" (payloadOf "b" "f")) =
        some { signature := fixH "k" (payloadOf "b" "f"), bucketName := fixBucket.name
               fileName := fixFile.name, method := "GET", expiresAt := 0 + 10
               singleUse := true, used := false, usedAt := none } ∧
      generateSignedURL fixH "k" "x" db1 5 "b" "f" 10 false =
        .ok ({ url := r1.url, expiresAt := 0 + 10
               message := "Existing signed URL returned" }, db1) :=
  claim_C5_issue_idempotent fixH "k" "x" fixDbFresh 0 5 10 "b" "f" true false fixFile fixBucket
    (by decide) (by decide) (by decide) (by decide)

/-- C6: validation distinguishes its error kinds in order.  A signature
with no stored row — in particular any corruption of a valid signature
that matches no row — fails with "not found" and can never reach the
integrity check; "integrity failure" is returned exactly when a stored,
unexpired, not-yet-consumed row resolves to a bucket and file whose
recomputed HMAC differs from the presented signature. -/
theorem claim_C6_validate_error_kinds
    (hmac : String → String → String) (secret : String) (db : Db) (now : Time)
    (sig : String) :
    (findSignedURL db.signedURLs sig = none →
      validateSignedURL hmac secret db now sig = .error .notFound) ∧
    (validateSignedURL hmac secret db now sig = .error .integrityFailure ↔
      ∃ u b f,
        findSignedURL db.signedURLs sig = some u ∧
        ¬ u.expiresAt < now ∧
        (u.singleUse && u.used) = false ∧
        findBucketByName db.buckets u.bucketName = some b ∧
        findFileByNameInBucket db.files u.fileName b.id = some f ∧
        sig ≠ hmac secret (payloadOf b.id f.id)) := by
  constructor
  · intro h
    unfold validateSignedURL
    rw [h]
  · constructor
    · intro h
      unfold validateSignedURL at h
      cases hu : findSignedURL db.signedURLs sig with
      | none => rw [hu] at h; exact absurd h (by simp)
      | some u =>
        rw [hu] at h
        dsimp only at h
        by_cases hexp : u.expiresAt < now
        · rw [if_pos hexp] at h; exact absurd h (by simp)
        · rw [if_neg hexp] at h
          by_cases hused : (u.singleUse && u.used) = true
          · rw [if_pos hused] at h; exact absurd h (by simp)
          · rw [if_neg hused] at h
            cases hb : findBucketByName db.buckets u.bucketName with
            | none => simp only [hb] at h; exact absurd h (by simp)
            | some b =>
              simp only [hb] at h
              cases hf : findFileByNameInBucket db.files u.fileName b.id with
              | none => simp only [hf] at h; exact absurd h (by simp)
              | some f =>
                simp only [hf] at h
                by_cases hsig : sig = hmac secret (payloadOf b.id f.id)
                · rw [if_pos hsig] at h; exact absurd h (by simp)
                · exact ⟨u, b, f, rfl, hexp, Bool.not_eq_true _ ▸ hused, hb, hf, hsig⟩
    · rintro ⟨u, b, f, hu, hexp, hused, hb, hf, hsig⟩
      unfold validateSignedURL
      simp only [hu, hb, hf]
      rw [if_neg hexp, hused]
      simp [hsig]

/-- A store whose single row has a signature that no longer matches the
HMAC recomputed from its resolved bucket/object identity. -/
def fixRowStale : SignedURL :=
  { signature := "stale", bucketName := "B", fileName := "F", method := "GET"
    expiresAt := 10, singleUse := false, used := false, usedAt := none }

def fixDbStale : Db :=
  { masterConfig := { storagePath := "/s", maxStorage := 100 }
    buckets := [fixBucket], files := [fixFile]
    storageNodes := [], signedURLs := [fixRowStale] }

/-- Witness for C6: the one-character corruption "k|b:g" of the valid
signature "k|b:f" fails with "not found", and a stored row whose
signature differs from the recomputed HMAC fails with "integrity
failure". -/
theorem claim_C6_witness :
    validateSignedURL fixH "k" fixDb 5 "k|b:g" = .error .notFound ∧
    validateSignedURL fixH "k" fixDbStale 5 "stale" = .error .integrityFailure := by
  constructor
  · exact (claim_C6_validate_error_kinds fixH "k" fixDb 5 "k|b:g").1 (by decide)
  · exact (claim_C6_validate_error_kinds fixH "k" fixDbStale 5 "stale").2.mpr
      ⟨fixRowStale, fixBucket, fixFile, by decide, by decide, by decide, by decide,
       by decide, by decide⟩

/-- An expired row for bucket `b` / file `f` (expiry 10, validated later). -/
def fixRowExpired : SignedURL :=
  { signature := "k|b:f", bucketName := "B", fileName := "F", method := "GET"
    expiresAt := 10, singleUse := false, used := false, usedAt := none }

def fixDbExpired : Db :=
  { masterConfig := { storagePath := "/s", maxStorage := 100 }
    buckets := [fixBucket], files := [fixFile]
    storageNodes := [], signedURLs := [fixRowExpired] }

/-- C7 counterexample: validating an expired token fails with "expired"
but does **not** delete the stored row — `ValidateSignedURL` contains no
store mutation, so the row is still found and a subsequent validation of
the same signature again reports "expired", never "not found". -/
theorem claim_C7_counterexample :
    validateSignedURL fixH "k" fixDbExpired 20 "k|b:f" = .error .expired ∧
    findSignedURL fixDbExpired.signedURLs "k|b:f" = some fixRowExpired ∧
    validateSignedURL fixH "k" fixDbExpired 21 "k|b:f" ≠ .error .notFound := by
  exact ⟨by decide, by decide, by decide⟩

/-- C7 (amended): a token validated after its expiry fails with "expired"
but the row is left in storage (validation performs no deletion);
subsequent lookups still find it.  The expired row is removed only by the
issuance path: re-issuing for the same payload deletes the expired row
and inserts a fresh unused one. -/
theorem claim_C7_expired_fails_row_retained
    (hmac : String → String → String) (secret baseURL : String) (db : Db)
    (now ttl : Time) (sig bucketId fileId : String) (su : Bool)
    (u : SignedURL) (file : File) (bucket : Bucket)
    (hu : findSignedURL db.signedURLs sig = some u)
    (hexp : u.expiresAt < now)
    (hf : findFileById db.files fileId bucketId = some file)
    (hb : findBucketById db.buckets bucketId = some bucket)
    (hsig : sig = hmac secret (payloadOf bucketId fileId)) :
    validateSignedURL hmac secret db now sig = .error .expired ∧
    findSignedURL db.signedURLs sig = some u ∧
    ∃ r db1,
      generateSignedURL hmac secret baseURL db now bucketId fileId ttl su = .ok (r, db1) ∧
      findSignedURL db1.signedURLs sig =
        some { signature := sig, bucketName := bucket.name, fileName := file.name
               method := "GET", expiresAt := now + ttl, singleUse := su
               used := false, usedAt := none } := by
  subst hsig
  have hno : ¬ now < u.expiresAt := Nat.not_lt.mpr (Nat.le_of_lt hexp)
  refine ⟨?_, hu, ?_⟩
  · unfold validateSignedURL
    rw [hu]
    dsimp only
    rw [if_pos hexp]
  · refine ⟨{ url := signedFileURL baseURL bucketId fileId (hmac secret (payloadOf bucketId fileId))
              expiresAt := now + ttl, message := "Signed URL generated successfully" },
            { db with signedURLs :=
                (db.signedURLs.filter fun v =>
                  decide (¬ v.signature = hmac secret (payloadOf bucketId fileId))) ++
                [{ signature := hmac secret (payloadOf bucketId fileId)
                   bucketName := bucket.name, fileName := file.name
                   method := "GET", expiresAt := now + ttl, singleUse := su
                   used := false, usedAt := none }] }, ?_, ?_⟩
    · unfold generateSignedURL
      simp only [hf, hb, hu]
      rw [if_neg hno]
    · exact findSignedURL_append_fresh _ _ (findSignedURL_filter_ne _ _)

/-- Witness for C7's amended statement at a concrete expired row. -/
theorem claim_C7_witness :
    validateSignedURL fixH "k" fixDbExpired 20 "k|b:f" = .error .expired ∧
    findSignedURL fixDbExpired.signedURLs "k|b:f" = some fixRowExpired ∧
    ∃ r db1,
      generateSignedURL fixH "k" "x" fixDbExpired 20 "b" "f" 5 true = .ok (r, db1) ∧
      findSignedURL db1.signedURLs "k|b:f" =
        some { signature := "k|b:f", bucketName := fixBucket.name, fileName := fixFile.name
               method := "GET", expiresAt := 20 + 5, singleUse := true
               used := false, usedAt := none } :=
  claim_C7_expired_fails_row_retained fixH "k" "x" fixDbExpired 20 5 "k|b:f" "b" "f" true
    fixRowExpired fixFile fixBucket (by decide) (by decide) (by decide) (by decide) (by decide)

/-- C8: a single-use token is permanently invalid after consumption —
validate, markUsed, validate ends in "already used"; a multi-use token's
markUsed is a no-op (the store, and so the `used` flag, is unchanged) and
it stays valid until expiry. -/
theorem claim_C8_single_use_consumption
    (hmac : String → String → String) (secret : String) (db : Db) (now : Time)
    (sig : String) (u : SignedURL) (b : Bucket) (f : File)
    (hu : findSignedURL db.signedURLs sig = some u)
    (hexp : ¬ u.expiresAt < now)
    (hunused : u.used = false)
    (hb : findBucketByName db.buckets u.bucketName = some b)
    (hf : findFileByNameInBucket db.files u.fileName b.id = some f)
    (hsig : sig = hmac secret (payloadOf b.id f.id)) :
    validateSignedURL hmac secret db now sig = .ok u ∧
    (u.singleUse = true →
      ∃ db1, markSignatureAsUsed db now sig = .ok db1 ∧
        validateSignedURL hmac secret db1 now sig = .error .alreadyUsed) ∧
    (u.singleUse = false →
      markSignatureAsUsed db now sig = .ok db ∧
      validateSignedURL hmac secret db now sig = .ok u) := by
  have hok : validateSignedURL hmac secret db now sig = .ok u :=
    validateSignedURL_eq_ok hu hexp (by simp [hunused]) hb hf hsig
  refine ⟨hok, ?_, ?_⟩
  · intro hsu
    refine ⟨{ db with signedURLs := db.signedURLs.map fun v =>
        if v.signature = sig then { v with used := true, usedAt := some now } else v }, ?_, ?_⟩
    · unfold markSignatureAsUsed
      rw [hu]
      dsimp only
      rw [if_pos hsu]
    · unfold validateSignedURL
      rw [findSignedURL_mark _ _ _ _ hu]
      dsimp only
      rw [if_neg hexp]
      simp [hsu]
  · intro hsu
    refine ⟨?_, hok⟩
    unfold markSignatureAsUsed
    rw [hu]
    dsimp only
    rw [if_neg (by simp [hsu])]

/-- The fixture row as a multi-use token, with its store. -/
def fixRowMulti : SignedURL :=
  { signature := "k|b:f", bucketName := "B", fileName := "F", method := "GET"
    expiresAt := 10, singleUse := false, used := false, usedAt := none }

def fixDbMulti : Db :=
  { masterConfig := { storagePath := "/s", maxStorage := 100 }
    buckets := [fixBucket], files := [fixFile]
    storageNodes := [], signedURLs := [fixRowMulti] }

/-- Witness for C8: a concrete single-use token is consumed by markUsed
and then rejected, while a concrete multi-use token is untouched by
markUsed and stays valid. -/
theorem claim_C8_witness :
    (∃ db1, markSignatureAsUsed fixDb 5 "k|b:f" = .ok db1 ∧
       validateSignedURL fixH "k" db1 5 "k|b:f" = .error .alreadyUsed) ∧
    (markSignatureAsUsed fixDbMulti 5 "k|b:f" = .ok fixDbMulti ∧
     validateSignedURL fixH "k" fixDbMulti 5 "k|b:f" = .ok fixRowMulti) := by
  constructor
  · exact (claim_C8_single_use_consumption fixH "k" fixDb 5 "k|b:f" fixRow fixBucket fixFile
      (by decide) (by decide) (by decide) (by decide) (by decide) (by decide)).2.1 (by decide)
  · exact (claim_C8_single_use_consumption fixH "k" fixDbMulti 5 "k|b:f" fixRowMulti fixBucket
      fixFile (by decide) (by decide) (by decide) (by decide) (by decide) (by decide)).2.2
      (by decide)

/-! Structural lemmas about the common tail of the upload handler. -/

theorem persistRecord_error_db (env : UploadEnv) (db : Db) (cmd : UploadCommand)
    (chosen : Option StorageNode) (filePath checksum : String) (e : UploadErr)
    (h : (persistRecord env db cmd chosen filePath checksum).1 = .error e) :
    e = .fileSaveFailed ∧ (persistRecord env db cmd chosen filePath checksum).2 = db := by
  unfold persistRecord at h ⊢
  by_cases hs : env.fileSaveOk = true
  · rw [if_pos hs] at h; simp at h
  · rw [if_neg hs] at h ⊢
    exact ⟨by simpa using h.symm, rfl⟩

theorem persistRecord_ok (env : UploadEnv) (db : Db) (cmd : UploadCommand)
    (chosen : Option StorageNode) (filePath checksum : String) (ok : UploadOk)
    (h : (persistRecord env db cmd chosen filePath checksum).1 = .ok ok) :
    ok = { filePath := filePath, checksum := checksum,
           storageNodeId := chosen.map (·.id) } ∧
    (persistRecord env db cmd chosen filePath checksum).2 =
      { db with files := db.files ++
          [{ id := cmd.newFileId, bucketId := cmd.bucketId, name := cmd.fileName
             path := filePath, size := cmd.size
             mimeType := cmd.contentType, checksum := checksum }] } := by
  unfold persistRecord at h ⊢
  by_cases hs : env.fileSaveOk = true
  · rw [if_pos hs] at h ⊢
    exact ⟨by simpa using h.symm, rfl⟩
  · rw [if_neg hs] at h; simp at h

theorem finishUpload_error_db (env : UploadEnv) (db : Db) (cmd : UploadCommand)
    (chosen : Option StorageNode) (e : UploadErr)
    (h : (finishUpload env db cmd chosen).1 = .error e) :
    (finishUpload env db cmd chosen).2 = db := by
  rcases hfe : finishUpload env db cmd chosen with ⟨r, db2⟩
  rw [hfe] at h
  dsimp only at h ⊢
  unfold finishUpload at hfe
  rcases chosen with _ | node
  · split at hfe
    · cases hfe; rfl
    · dsimp only at hfe
      split at hfe
      · cases hfe; rfl
      · split at hfe
        · cases hfe; rfl
        · split at hfe
          · cases hfe; rfl
          · have h1 := congrArg Prod.fst hfe
            have h2 := congrArg Prod.snd hfe
            dsimp only at h1 h2
            rw [h] at h1
            rw [(persistRecord_error_db _ _ _ _ _ _ _ h1).2] at h2
            exact h2.symm
  · split at hfe
    · cases hfe; rfl
    · dsimp only at hfe
      have h1 := congrArg Prod.fst hfe
      have h2 := congrArg Prod.snd hfe
      dsimp only at h1 h2
      rw [h] at h1
      rw [(persistRecord_error_db _ _ _ _ _ _ _ h1).2] at h2
      exact h2.symm

theorem finishUpload_not_bucketErr (env : UploadEnv) (db : Db) (cmd : UploadCommand)
    (chosen : Option StorageNode) (bucket : Bucket)
    (hb : findBucketById db.buckets cmd.bucketId = some bucket) :
    (finishUpload env db cmd chosen).1 ≠ .error .bucketNotFound := by
  intro h
  rcases hfe : finishUpload env db cmd chosen with ⟨r, db2⟩
  rw [hfe] at h
  dsimp only at h
  unfold finishUpload at hfe
  rw [hb] at hfe
  rcases chosen with _ | node
  · dsimp only at hfe
    split at hfe
    · cases hfe; simp at h
    · split at hfe
      · cases hfe; simp at h
      · split at hfe
        · cases hfe; simp at h
        · have h1 := congrArg Prod.fst hfe
          dsimp only at h1
          rw [h] at h1
          have := (persistRecord_error_db _ _ _ _ _ _ _ h1).1
          simp at this
  · dsimp only at hfe
    have h1 := congrArg Prod.fst hfe
    dsimp only at h1
    rw [h] at h1
    have := (persistRecord_error_db _ _ _ _ _ _ _ h1).1
    simp at this

/-- A success of the common tail reports the chosen node's id and appends
exactly one file record, leaving every other table unchanged. -/
theorem finishUpload_ok_shape (env : UploadEnv) (db : Db) (cmd : UploadCommand)
    (chosen : Option StorageNode) (ok : UploadOk)
    (h : (finishUpload env db cmd chosen).1 = .ok ok) :
    ok.storageNodeId = chosen.map (·.id) ∧
    ∃ rec, (finishUpload env db cmd chosen).2 = { db with files := db.files ++ [rec] } := by
  rcases hfe : finishUpload env db cmd chosen with ⟨r, db2⟩
  rw [hfe] at h
  dsimp only at h ⊢
  unfold finishUpload at hfe
  rcases chosen with _ | node
  · split at hfe
    · cases hfe; simp at h
    · dsimp only at hfe
      split at hfe
      · cases hfe; simp at h
      · split at hfe
        · cases hfe; simp at h
        · split at hfe
          · cases hfe; simp at h
          · have h1 := congrArg Prod.fst hfe
            have h2 := congrArg Prod.snd hfe
            dsimp only at h1 h2
            rw [h] at h1
            have hp := persistRecord_ok _ _ _ _ _ _ _ h1
            rw [hp.2] at h2
            exact ⟨by rw [hp.1], _, h2.symm⟩
  · split at hfe
    · cases hfe; simp at h
    · dsimp only at hfe
      have h1 := congrArg Prod.fst hfe
      have h2 := congrArg Prod.snd hfe
      dsimp only at h1 h2
      rw [h] at h1
      have hp := persistRecord_ok _ _ _ _ _ _ _ h1
      rw [hp.2] at h2
      exact ⟨by rw [hp.1], _, h2.symm⟩

theorem finishUpload_some_error_kinds (env : UploadEnv) (db : Db) (cmd : UploadCommand)
    (node : StorageNode) (e : UploadErr)
    (h : (finishUpload env db cmd (some node)).1 = .error e) :
    e = .bucketNotFound ∨ e = .fileSaveFailed := by
  rcases hfe : finishUpload env db cmd (some node) with ⟨r, db2⟩
  rw [hfe] at h
  dsimp only at h
  unfold finishUpload at hfe
  split at hfe
  · cases hfe
    injection h with h'
    exact .inl h'.symm
  · dsimp only at hfe
    have h1 := congrArg Prod.fst hfe
    dsimp only at h1
    rw [h] at h1
    exact .inr (persistRecord_error_db _ _ _ _ _ _ _ h1).1

theorem finishUpload_none_ok (env : UploadEnv) (db : Db) (cmd : UploadCommand) (ok : UploadOk)
    (h : (finishUpload env db cmd none).1 = .ok ok) :
    ∃ bucket, findBucketById db.buckets cmd.bucketId = some bucket ∧
      ok = { filePath := localPathFor db.masterConfig.storagePath bucket.name cmd.newFileId
             checksum := env.hash cmd.content, storageNodeId := none } := by
  rcases hfe : finishUpload env db cmd none with ⟨r, db2⟩
  rw [hfe] at h
  dsimp only at h
  unfold finishUpload at hfe
  split at hfe
  · cases hfe; simp at h
  · rename_i bucket hbfound
    dsimp only at hfe
    split at hfe
    · cases hfe; simp at h
    · split at hfe
      · cases hfe; simp at h
      · split at hfe
        · cases hfe; simp at h
        · have h1 := congrArg Prod.fst hfe
          dsimp only at h1
          rw [h] at h1
          exact ⟨bucket, hbfound, (persistRecord_ok _ _ _ _ _ _ _ h1).1⟩

/-- A path built by the local-placement branch never carries the remote
`node://` scheme, provided the configured storage path is absolute. -/
theorem isNodePath_localPathFor_false (sp name fid : String)
    (h : sp.data.head? = some '/') :
    isNodePath (localPathFor sp name fid) = false := by
  unfold isNodePath localPathFor
  cases hsp : sp.data with
  | nil => rw [hsp] at h; simp at h
  | cons c cs =>
    rw [hsp] at h
    simp only [List.head?_cons, Option.some.injEq] at h
    have hD : (sp ++ "/" ++ name ++ "/" ++ fid).data =
        c :: (cs ++ ("/".data ++ (name.data ++ ("/".data ++ fid.data)))) := by
      simp [String.data_append, hsp]
    rw [hD]
    subst h
    rfl

/-! Fixtures for the placement claims. -/

def fixNode1 : StorageNode :=
  { id := "n1", name := "N1", url := "u1", authKey := "a1", isActive := true
    isHealthy := true, priority := 1, maxStorage := 5, usedStorage := 0, lastPing := none }

def fixNode2 : StorageNode :=
  { id := "n2", name := "N2", url := "u2", authKey := "a2", isActive := true
    isHealthy := true, priority := 1, maxStorage := 100, usedStorage := 0, lastPing := none }

def fixEnvOk : UploadEnv :=
  { remoteWrite := some true, mkdirOk := true, diskWriteOk := true
    fileSaveOk := true, hash := fun c => String.append "#" c }

def fixCmd10 : UploadCommand :=
  { bucketId := "b", fileName := "F2", contentType := "t", uploadedBy := "u"
    size := 10, content := "xyz", newFileId := "nf" }

/-- A full master with two eligible nodes: the first lacks room for a
10-byte object, the second has plenty. -/
def fixDbTwoNodes : Db :=
  { masterConfig := { storagePath := "/s", maxStorage := 0 }
    buckets := [fixBucket], files := []
    storageNodes := [fixNode1, fixNode2], signedURLs := [] }

/-- C1 counterexample: the master is full and an active+healthy node with
enough free space exists (the second one), yet the upload fails, because
the handler takes only the **first** active+healthy node and gives up
when that one lacks room — no fallback to the next candidate. -/
theorem claim_C1_counterexample :
    masterFreeSpace fixDbTwoNodes.masterConfig fixDbTwoNodes.files < fixCmd10.size ∧
    (∃ n, n ∈ fixDbTwoNodes.storageNodes ∧ n.isActive = true ∧ n.isHealthy = true ∧
      fixCmd10.size ≤ n.maxStorage - n.usedStorage) ∧
    (distributedUpload fixEnvOk fixDbTwoNodes fixCmd10).1 = .error .insufficientSpace ∧
    (distributedUpload fixEnvOk fixDbTwoNodes fixCmd10).2 = fixDbTwoNodes :=
  ⟨by decide, ⟨fixNode2, by decide, rfl, rfl, by decide⟩, by decide, by decide⟩

/-- C1 (amended): when the master is short and the **first** node in the
registry with `active ∧ healthy` — the one `FirstOrDefault` returns —
has free space for the object, the bucket resolves, the remote write is
accepted and the record save succeeds, then the upload succeeds placed
on that node, and exactly that node's used-storage counter increases by
exactly the object's size. -/
theorem claim_C1_first_eligible_node_placement
    (env : UploadEnv) (db : Db) (cmd : UploadCommand) (node : StorageNode) (bucket : Bucket)
    (hm : masterFreeSpace db.masterConfig db.files < cmd.size)
    (hn : db.storageNodes.find? (fun n => n.isActive && n.isHealthy) = some node)
    (hs : ¬ node.maxStorage - node.usedStorage < cmd.size)
    (hb : findBucketById db.buckets cmd.bucketId = some bucket)
    (hw : env.remoteWrite = some true)
    (hsave : env.fileSaveOk = true) :
    distributedUpload env db cmd =
      (.ok { filePath := nodePathFor node.id cmd.bucketId cmd.newFileId
             checksum := "stored-on-node", storageNodeId := some node.id },
       { db with
           storageNodes := db.storageNodes.map fun m =>
             if m.id = node.id then { m with usedStorage := m.usedStorage + cmd.size } else m
           files := db.files ++
             [{ id := cmd.newFileId, bucketId := cmd.bucketId, name := cmd.fileName
                path := nodePathFor node.id cmd.bucketId cmd.newFileId, size := cmd.size
                mimeType := cmd.contentType, checksum := "stored-on-node" }] }) := by
  unfold distributedUpload
  rw [if_pos hm, hn]
  dsimp only
  rw [if_neg hs, hb]
  dsimp only
  rw [hw]
  dsimp only
  unfold finishUpload
  rw [hb]
  dsimp only
  unfold persistRecord
  rw [hsave]
  rfl

/-- A registry whose only node is the roomy one. -/
def fixDbOneBig : Db :=
  { masterConfig := { storagePath := "/s", maxStorage := 0 }
    buckets := [fixBucket], files := []
    storageNodes := [fixNode2], signedURLs := [] }

/-- Witness for C1's amended statement: the concrete upload lands on the
single eligible node and its counter moves 0 → 10. -/
theorem claim_C1_witness :
    distributedUpload fixEnvOk fixDbOneBig fixCmd10 =
      (.ok { filePath := nodePathFor fixNode2.id fixCmd10.bucketId fixCmd10.newFileId
             checksum := "stored-on-node", storageNodeId := some fixNode2.id },
       { fixDbOneBig with
           storageNodes := fixDbOneBig.storageNodes.map fun m =>
             if m.id = fixNode2.id then { m with usedStorage := m.usedStorage + fixCmd10.size }
             else m
           files := fixDbOneBig.files ++
             [{ id := fixCmd10.newFileId, bucketId := fixCmd10.bucketId
                name := fixCmd10.fileName
                path := nodePathFor fixNode2.id fixCmd10.bucketId fixCmd10.newFileId
                size := fixCmd10.size
                mimeType := fixCmd10.contentType, checksum := "stored-on-node" }] }) :=
  claim_C1_first_eligible_node_placement fixEnvOk fixDbOneBig fixCmd10 fixNode2 fixBucket
    (by decide) (by decide) (by decide) (by decide) rfl rfl

/-- C2: when the declared size fits the master's free space the handler
takes the local branch: no node's used-storage counter changes whatever
the outcome, and a success reports no storage node and a local path
descriptor — the join of the configured storage path, the bucket's name
and the generated id, which (for an absolute storage path) does not
carry the `node://` scheme. -/
theorem claim_C2_small_upload_stays_local
    (env : UploadEnv) (db : Db) (cmd : UploadCommand)
    (hsz : ¬ masterFreeSpace db.masterConfig db.files < cmd.size) :
    (distributedUpload env db cmd).2.storageNodes = db.storageNodes ∧
    ∀ ok, (distributedUpload env db cmd).1 = .ok ok →
      ok.storageNodeId = none ∧
      ∃ bucket, findBucketById db.buckets cmd.bucketId = some bucket ∧
        ok.filePath = localPathFor db.masterConfig.storagePath bucket.name cmd.newFileId ∧
        (db.masterConfig.storagePath.data.head? = some '/' →
          isNodePath ok.filePath = false) := by
  have hred : distributedUpload env db cmd = finishUpload env db cmd none := by
    unfold distributedUpload
    rw [if_neg hsz]
  constructor
  · rw [hred]
    rcases hr : (finishUpload env db cmd none).1 with e | ok
    · rw [finishUpload_error_db _ _ _ _ _ hr]
    · obtain ⟨-, rec, h2⟩ := finishUpload_ok_shape _ _ _ _ _ hr
      rw [h2]
  · intro ok hok
    rw [hred] at hok
    obtain ⟨bucket, hb, hokeq⟩ := finishUpload_none_ok _ _ _ _ hok
    subst hokeq
    exact ⟨rfl, bucket, hb, rfl, fun hh => isNodePath_localPathFor_false _ _ _ hh⟩

/-- A master with room to spare and no nodes registered. -/
def fixDbRoomy : Db :=
  { masterConfig := { storagePath := "/s", maxStorage := 100 }
    buckets := [fixBucket], files := []
    storageNodes := [fixNode1], signedURLs := [] }

/-- Witness for C2 at a concrete roomy master. -/
theorem claim_C2_witness :
    (distributedUpload fixEnvOk fixDbRoomy fixCmd10).2.storageNodes =
      fixDbRoomy.storageNodes ∧
    ∀ ok, (distributedUpload fixEnvOk fixDbRoomy fixCmd10).1 = .ok ok →
      ok.storageNodeId = none ∧
      ∃ bucket, findBucketById fixDbRoomy.buckets fixCmd10.bucketId = some bucket ∧
        ok.filePath =
          localPathFor fixDbRoomy.masterConfig.storagePath bucket.name fixCmd10.newFileId ∧
        (fixDbRoomy.masterConfig.storagePath.data.head? = some '/' →
          isNodePath ok.filePath = false) :=
  claim_C2_small_upload_stays_local fixEnvOk fixDbRoomy fixCmd10 (by decide)

/-- A record whose bytes live on a node, counted by the code's free-space
figure all the same. -/
def fixFileRemote : File :=
  { id := "fr", bucketId := "b", name := "FR", path := "node://n/b/fr"
    size := 60, mimeType := "t", checksum := "stored-on-node" }

def fixCfg100 : SetupConfig := { storagePath := "/s", maxStorage := 100 }

def fixDbRemoteOnly : Db :=
  { masterConfig := fixCfg100, buckets := [fixBucket], files := [fixFileRemote]
    storageNodes := [], signedURLs := [] }

def fixCmd50 : UploadCommand := { fixCmd10 with size := 50 }

/-- C3 counterexample: with a 100-byte ceiling and a single 60-byte object
stored on a remote node, the code computes 40 bytes free while the spec's
"locally stored objects only" reading gives 100; and a 50-byte upload —
which fits under the spec's reading — is sent down the node branch and
fails for lack of nodes, showing the decision charges remote objects
against the master. -/
theorem claim_C3_counterexample :
    masterFreeSpace fixCfg100 [fixFileRemote] = 40 ∧
    masterFreeSpaceSpecLocalOnly fixCfg100 [fixFileRemote] = 100 ∧
    masterFreeSpace fixCfg100 [fixFileRemote] ≠
      masterFreeSpaceSpecLocalOnly fixCfg100 [fixFileRemote] ∧
    (distributedUpload fixEnvOk fixDbRemoteOnly fixCmd50).1 = .error .noActiveNodes :=
  ⟨by decide, by decide, by decide, by decide⟩

/-- C3 (amended): the free-space figure the placement decision uses is
the ceiling minus the sum of the sizes of **all** object records — those
on remote nodes included; it equals the spec's locally-stored-only figure
minus the total size of the node-resident records. -/
theorem claim_C3_free_space_counts_all_records (cfg : SetupConfig) (files : List File) :
    masterFreeSpace cfg files =
      masterFreeSpaceSpecLocalOnly cfg files -
        ((files.filter fun f => isNodePath f.path).map (·.size)).sum := by
  unfold masterFreeSpace masterFreeSpaceSpecLocalOnly masterUsedStorage
  induction files with
  | nil => simp
  | cons f fs ih =>
    by_cases hp : isNodePath f.path = true
    · simp [List.filter_cons, hp]
      omega
    · have hp' : isNodePath f.path = false := by
        cases hq : isNodePath f.path
        · rfl
        · exact absurd hq hp
      simp [List.filter_cons, hp']
      omega

/-- The environment whose final record save fails while everything
upstream of it succeeds. -/
def fixEnvNoSave : UploadEnv :=
  { remoteWrite := some true, mkdirOk := true, diskWriteOk := true
    fileSaveOk := false, hash := fun c => String.append "#" c }

/-- C4 counterexample: an upload that errors after the remote write
succeeded (the file-record save fails) leaves the chosen node's
used-storage counter incremented — the error return is not atomic: the
counter moved 0 → 10 with no object record created. -/
theorem claim_C4_counterexample :
    (distributedUpload fixEnvNoSave fixDbOneBig fixCmd10).1 = .error .fileSaveFailed ∧
    (distributedUpload fixEnvNoSave fixDbOneBig fixCmd10).2.storageNodes.map
      (·.usedStorage) = [10] ∧
    fixDbOneBig.storageNodes.map (·.usedStorage) = [0] ∧
    (distributedUpload fixEnvNoSave fixDbOneBig fixCmd10).2.files = fixDbOneBig.files :=
  ⟨by decide, by decide, by decide, by decide⟩

/-- C4 (amended): the placement's atomicity boundary.  Any error other
than the file-record save failure leaves the entire store untouched; the
file-record save failure never leaves a partial object record (but, as
the counterexample shows, may leave the node counter incremented); and a
success appends exactly one record, with the node counters untouched
whenever the object was placed locally. -/
theorem claim_C4_partial_state_boundaries
    (env : UploadEnv) (db : Db) (cmd : UploadCommand)
    (r : Except UploadErr UploadOk) (db2 : Db)
    (h : distributedUpload env db cmd = (r, db2)) :
    (∀ e, r = .error e → e ≠ .fileSaveFailed → db2 = db) ∧
    (r = .error .fileSaveFailed → db2.files = db.files) ∧
    (∀ ok, r = .ok ok →
      (∃ rec, db2.files = db.files ++ [rec]) ∧
      (ok.storageNodeId = none → db2.storageNodes = db.storageNodes)) := by
  unfold distributedUpload at h
  by_cases hm : masterFreeSpace db.masterConfig db.files < cmd.size
  · rw [if_pos hm] at h
    cases hn : db.storageNodes.find? (fun n => n.isActive && n.isHealthy) with
    | none =>
      rw [hn] at h
      dsimp only at h
      cases h
      exact ⟨fun e he hne => rfl, by simp, by simp⟩
    | some node =>
      rw [hn] at h
      dsimp only at h
      by_cases hs : node.maxStorage - node.usedStorage < cmd.size
      · rw [if_pos hs] at h
        cases h
        exact ⟨fun e he hne => rfl, by simp, by simp⟩
      · rw [if_neg hs] at h
        cases hbq : findBucketById db.buckets cmd.bucketId with
        | none =>
          rw [hbq] at h
          dsimp only at h
          cases h
          exact ⟨fun e he hne => rfl, by simp, by simp⟩
        | some bucket =>
          rw [hbq] at h
          dsimp only at h
          cases hw : env.remoteWrite with
          | none =>
            rw [hw] at h
            dsimp only at h
            cases h
            exact ⟨fun e he hne => rfl, by simp, by simp⟩
          | some flag =>
            rw [hw] at h
            cases flag with
            | false =>
              dsimp only at h
              cases h
              exact ⟨fun e he hne => rfl, by simp, by simp⟩
            | true =>
              dsimp only at h
              have h1 := congrArg Prod.fst h
              have h3 := congrArg Prod.snd h
              dsimp only at h1 h3
              refine ⟨?_, ?_, ?_⟩
              · intro e he hne
                rw [he] at h1
                rcases finishUpload_some_error_kinds _ _ _ _ _ h1 with hk | hk
                · subst hk
                  exact absurd h1 (finishUpload_not_bucketErr _ _ _ _ bucket hbq)
                · exact absurd hk hne
              · intro he
                rw [he] at h1
                have h2 := finishUpload_error_db _ _ _ _ _ h1
                rw [h2] at h3
                rw [← h3]
              · intro ok hok
                rw [hok] at h1
                obtain ⟨hid, rec, h2⟩ := finishUpload_ok_shape _ _ _ _ _ h1
                rw [h2] at h3
                constructor
                · exact ⟨rec, by rw [← h3]⟩
                · intro hnone
                  rw [hid] at hnone
                  simp at hnone
  · rw [if_neg hm] at h
    have h1 := congrArg Prod.fst h
    have h3 := congrArg Prod.snd h
    dsimp only at h1 h3
    refine ⟨?_, ?_, ?_⟩
    · intro e he hne
      rw [he] at h1
      have h2 := finishUpload_error_db _ _ _ _ _ h1
      rw [h2] at h3
      exact h3.symm
    · intro he
      rw [he] at h1
      have h2 := finishUpload_error_db _ _ _ _ _ h1
      rw [h2] at h3
      rw [← h3]
    · intro ok hok
      rw [hok] at h1
      obtain ⟨hid, rec, h2⟩ := finishUpload_ok_shape _ _ _ _ _ h1
      rw [h2] at h3
      exact ⟨⟨rec, by rw [← h3]⟩, fun _ => by rw [← h3]⟩

/-- Witness for C4's amended statement at a concrete failed upload (the
master is full and no node is registered): the error leaves the store
unchanged. -/
def fixDbNoNodes : Db :=
  { masterConfig := { storagePath := "/s", maxStorage := 0 }
    buckets := [fixBucket], files := []
    storageNodes := [], signedURLs := [] }

theorem claim_C4_witness :
    (∀ e, (Except.error UploadErr.noActiveNodes : Except UploadErr UploadOk) = .error e →
      e ≠ .fileSaveFailed → fixDbNoNodes = fixDbNoNodes) ∧
    ((Except.error UploadErr.noActiveNodes : Except UploadErr UploadOk) =
        .error .fileSaveFailed → fixDbNoNodes.files = fixDbNoNodes.files) ∧
    (∀ ok, (Except.error UploadErr.noActiveNodes : Except UploadErr UploadOk) = .ok ok →
      (∃ rec, fixDbNoNodes.files = fixDbNoNodes.files ++ [rec]) ∧
      (ok.storageNodeId = none →
        fixDbNoNodes.storageNodes = fixDbNoNodes.storageNodes)) :=
  claim_C4_partial_state_boundaries fixEnvOk fixDbNoNodes fixCmd10
    (.error .noActiveNodes) fixDbNoNodes (by decide)

/-- An administratively deactivated, unhealthy node. -/
def fixNodeInactive : StorageNode :=
  { id := "n3", name := "N3", url := "u3", authKey := "a3", isActive := false
    isHealthy := false, priority := 1, maxStorage := 100, usedStorage := 7, lastPing := none }

def fixDbInactive : Db :=
  { masterConfig := fixCfg100, buckets := [], files := []
    storageNodes := [fixNodeInactive], signedURLs := [] }

/-- What the probe path turns the deactivated node into: healthy, fresh
last-contact, and — the divergence — active again. -/
def fixNodeReactivated : StorageNode :=
  { fixNodeInactive with isHealthy := true, lastPing := some 5, isActive := true }

/-- C9 counterexample: the active per-node probe and the bulk sweep do
not leave the administrator-controlled active flag alone — both force
`IsActive := true`, so probing a deactivated node reactivates it. -/
theorem claim_C9_counterexample :
    fixNodeInactive.isActive = false ∧
    healthCheck (fun _ => true) 5 fixDbInactive "n3" =
      some ({ fixDbInactive with storageNodes := [fixNodeReactivated] }, true) ∧
    (checkAllNodesHealth (fun _ => true) 5 fixDbInactive).storageNodes.map (·.isActive) =
      [true] :=
  ⟨rfl, by decide, by decide⟩

/-- C9 (amended): the probe paths (per-node check and bulk sweep) update
exactly a node's healthy flag, last-contact time **and force the active
flag to true**, leaving identity, endpoint, secret, priority and the
storage counters unchanged; the passive ping updates only the healthy
flag and last-contact time, leaving the active flag (and everything
else) unchanged. -/
theorem claim_C9_health_update_frame
    (probe : StorageNode → Bool) (now : Time) (db : Db) (url authKey : String) :
    (∀ n healthy,
      (applyHealthCheck now healthy n).name = n.name ∧
      (applyHealthCheck now healthy n).url = n.url ∧
      (applyHealthCheck now healthy n).authKey = n.authKey ∧
      (applyHealthCheck now healthy n).priority = n.priority ∧
      (applyHealthCheck now healthy n).maxStorage = n.maxStorage ∧
      (applyHealthCheck now healthy n).usedStorage = n.usedStorage ∧
      (applyHealthCheck now healthy n).id = n.id ∧
      (applyHealthCheck now healthy n).isHealthy = healthy ∧
      (applyHealthCheck now healthy n).lastPing = some now ∧
      (applyHealthCheck now healthy n).isActive = true) ∧
    (checkAllNodesHealth probe now db).storageNodes =
      db.storageNodes.map (fun n => applyHealthCheck now (probe n) n) ∧
    (∀ nodeId db1 healthy, healthCheck probe now db nodeId = some (db1, healthy) →
      db1.storageNodes = db.storageNodes.map fun m =>
        if m.id = nodeId then applyHealthCheck now healthy m else m) ∧
    (∀ n,
      (applyPing now n).isActive = n.isActive ∧
      (applyPing now n).name = n.name ∧
      (applyPing now n).url = n.url ∧
      (applyPing now n).authKey = n.authKey ∧
      (applyPing now n).priority = n.priority ∧
      (applyPing now n).maxStorage = n.maxStorage ∧
      (applyPing now n).usedStorage = n.usedStorage ∧
      (applyPing now n).id = n.id ∧
      (applyPing now n).isHealthy = true ∧
      (applyPing now n).lastPing = some now) ∧
    (∀ db1, nodePing now db url authKey = .ok db1 →
      ∃ node,
        db.storageNodes.find? (fun n => decide (n.url = url ∧ n.authKey = authKey)) =
          some node ∧
        db1.storageNodes = db.storageNodes.map fun m =>
          if m.id = node.id then applyPing now m else m) := by
  refine ⟨fun n healthy => ⟨rfl, rfl, rfl, rfl, rfl, rfl, rfl, rfl, rfl, rfl⟩, rfl, ?_,
    fun n => ⟨rfl, rfl, rfl, rfl, rfl, rfl, rfl, rfl, rfl, rfl⟩, ?_⟩
  · intro nodeId db1 healthy hh
    unfold healthCheck at hh
    cases hfind : db.storageNodes.find? (fun n => decide (n.id = nodeId)) with
    | none => rw [hfind] at hh; simp at hh
    | some node =>
      rw [hfind] at hh
      dsimp only at hh
      injection hh with hh
      injection hh with hh1 hh2
      rw [← hh1]
      rw [hh2]
  · intro db1 hh
    unfold nodePing at hh
    cases hfind : db.storageNodes.find?
        (fun n => decide (n.url = url ∧ n.authKey = authKey)) with
    | none => rw [hfind] at hh; simp at hh
    | some node =>
      rw [hfind] at hh
      dsimp only at hh
      injection hh with hh
      exact ⟨node, rfl, by rw [← hh]⟩

/-- The store after the fixture inactive node pings the master. -/
def fixDbPinged : Db :=
  { fixDbInactive with storageNodes :=
      [{ fixNodeInactive with isHealthy := true, lastPing := some 5 }] }

/-- Witness for C9's amended statement: a concrete passive ping updates
only health and last-contact, leaving the node deactivated. -/
theorem claim_C9_witness :
    ∃ node,
      fixDbInactive.storageNodes.find?
        (fun n => decide (n.url = "u3" ∧ n.authKey = "a3")) = some node ∧
      fixDbPinged.storageNodes = fixDbInactive.storageNodes.map fun m =>
        if m.id = node.id then applyPing 5 m else m :=
  (claim_C9_health_update_frame (fun _ => true) 5 fixDbInactive "u3" "a3").2.2.2.2
    fixDbPinged (by decide)

/-- C10: when a single-use token authorizes a serve, the token is marked
used during the authorization step, before any bytes are retrieved; if
the object lives on a node and the fetch fails, the request errors while
the token stays consumed — a later validation of the same signature
fails with "already used", with no rollback. -/
theorem claim_C10_token_consumed_before_fetch
    (hmac : String → String → String) (secret : String) (db : Db) (now : Time)
    (bucketId fileId sig : String) (fileInfo : File) (bucket : Bucket)
    (u : SignedURL) (b : Bucket) (f : File)
    (hfile : findFileById db.files fileId bucketId = some fileInfo)
    (hbucket : findBucketById db.buckets bucketId = some bucket)
    (hpriv : bucket.publicRead = false)
    (hu : findSignedURL db.signedURLs sig = some u)
    (hsu : u.singleUse = true) (hunused : u.used = false)
    (hexp : ¬ u.expiresAt < now)
    (hb : findBucketByName db.buckets u.bucketName = some b)
    (hf : findFileByNameInBucket db.files u.fileName b.id = some f)
    (hsig : sig = hmac secret (payloadOf b.id f.id))
    (hnode : isNodePath fileInfo.path = true)
    (hparts : 3 ≤ (nodePathParts fileInfo.path).length) :
    ∃ db1,
      serveFile hmac secret false now db bucketId fileId (some sig) =
        (.nodeFetchFailed, db1) ∧
      findSignedURL db1.signedURLs sig = some { u with used := true, usedAt := some now } ∧
      validateSignedURL hmac secret db1 now sig = .error .alreadyUsed := by
  have hok : validateSignedURL hmac secret db now sig = .ok u :=
    validateSignedURL_eq_ok hu hexp (by simp [hunused]) hb hf hsig
  refine ⟨{ db with signedURLs := db.signedURLs.map fun v =>
      if v.signature = sig then { v with used := true, usedAt := some now } else v },
    ?_, ?_, ?_⟩
  · unfold serveFile
    rw [hfile]
    dsimp only
    rw [hbucket]
    dsimp only
    rw [hpriv]
    rw [if_neg Bool.false_ne_true]
    rw [hok]
    dsimp only
    rw [if_pos (show (u.singleUse && !u.used) = true by rw [hsu, hunused]; rfl)]
    unfold markSignatureAsUsed
    rw [hu]
    dsimp only
    rw [if_pos hsu]
    dsimp only
    rw [if_pos ⟨hnode, hparts⟩, if_neg Bool.false_ne_true]
  · exact findSignedURL_mark _ _ _ _ hu
  · unfold validateSignedURL
    rw [findSignedURL_mark _ _ _ _ hu]
    dsimp only
    rw [if_neg hexp]
    simp [hsu]

/-- Witness for C10: the fixture store (private bucket, node-resident
file, valid unused single-use token) with a failing node fetch. -/
theorem claim_C10_witness :
    ∃ db1,
      serveFile fixH "k" false 5 fixDb "b" "f" (some "k|b:f") =
        (.nodeFetchFailed, db1) ∧
      findSignedURL db1.signedURLs "k|b:f" =
        some { fixRow with used := true, usedAt := some 5 } ∧
      validateSignedURL fixH "k" db1 5 "k|b:f" = .error .alreadyUsed :=
  claim_C10_token_consumed_before_fetch fixH "k" fixDb 5 "b" "f" "k|b:f" fixFile fixBucket
    fixRow fixBucket fixFile (by decide) (by decide) (by decide) (by decide) (by decide)
    (by decide) (by decide) (by decide) (by decide) (by decide) (by decide) (by decide)

end ShBucket
